import Mathlib

/-!
Verification of the resource codec, response normalizer, listing handler,
HTML renderer, truncation formatter and error classifier of the
itglue-mcp-server repository, as a shallow embedding in Lean 4.

Sources embedded here:
  - src/services/itglue-client.ts : key translation, deserializeResource,
    serializeRequest, deserializeOne, handleApiError, stripHtml,
    truncateIfNeeded, buildPaginationParams, buildFilterParams,
    ITGlueClient.getOne (pure post-response part).
  - src/tools/documents.ts : the itglue_list_documents handler (the pure
    query-construction and result part, the HTTP client being modelled as
    a function parameter).
  - src/constants.ts : CHARACTER_LIMIT = 25000.

JavaScript strings are modelled as Lean Strings where the code only ever
maps ASCII characters one-for-one, and as lists of UTF-16 code units
(List Nat) for stripHtml and truncateIfNeeded, whose behaviour depends on
code-unit arithmetic (String.fromCharCode, .length, .slice).
JavaScript objects with dynamic keys are modelled as functions
String → Option JSVal built by insertion, matching property-assignment
semantics (later assignment to the same key overwrites).
-/

namespace ITGlue

/-- JSON scalar value as stored in a dynamic attribute bag. The `undef`
constructor models the JavaScript value `undefined` ("absent"); all embedded
operations treat non-`undef` values opaquely, so scalars suffice. -/
inductive JSVal where
  | undef : JSVal
  | null : JSVal
  | bool (b : Bool) : JSVal
  | num (n : Int) : JSVal
  | str (s : String) : JSVal
deriving DecidableEq

/-- A JavaScript object with dynamic string keys, as a lookup function. -/
def JsObj : Type := String → Option JSVal

/-- The empty object literal. -/
def objEmpty : JsObj := fun _ => none

/-- Property assignment `m[k] = v`: later assignments overwrite earlier ones. -/
def objInsert (m : JsObj) (k : String) (v : JSVal) : JsObj :=
  fun q => if q = k then some v else m q

/-- Embeds `kebabToSnake` from itglue-client.ts: replace every hyphen in the
key by an underscore (a global regex replace in the source). The replacement
is per code unit; `-` and `_` are ASCII, so mapping Lean characters
one-for-one is exact. -/
def kebabToSnake (s : String) : String :=
  ⟨s.data.map (fun c => if c = '-' then '_' else c)⟩

/-- Embeds `snakeToKebab` from itglue-client.ts: replace every underscore in
the key by a hyphen (a global regex replace in the source). -/
def snakeToKebab (s : String) : String :=
  ⟨s.data.map (fun c => if c = '_' then '-' else c)⟩

/-- A wire resource (`JsonApiResourceObject` in types.ts). Attributes are an
ordered association list, mirroring a JSON object's entry order; the optional
`relationships` field is never read by the embedded code and is omitted. -/
structure Resource where
  id : String
  type : String
  attributes : List (String × JSVal)

/-- Loop body of `deserializeResource`: `result[kebabToSnake(key)] = value`. -/
def desStep (m : JsObj) (p : String × JSVal) : JsObj :=
  objInsert m (kebabToSnake p.1) p.2

/-- Embeds `deserializeResource` from itglue-client.ts: starts from
`{ id: resource.id, type: resource.type }` and assigns every attribute
under its underscored key. An attribute literally named `id` or `type`
therefore overwrites the initial field. -/
def deserializeResource (r : Resource) : JsObj :=
  r.attributes.foldl desStep
    (objInsert (objInsert objEmpty "id" (JSVal.str r.id)) "type" (JSVal.str r.type))

/-- Loop body of `serializeRequest`: skip `undefined` values, otherwise
`kebabAttributes[snakeToKebab(key)] = value`. -/
def serStep (m : JsObj) (p : String × JSVal) : JsObj :=
  if p.2 = JSVal.undef then m else objInsert m (snakeToKebab p.1) p.2

/-- The `data` part of an outbound mutation body. -/
structure MutationData where
  type : String
  attributes : JsObj
  id : Option String

/-- Outbound mutation envelope `{ data: { type, attributes, id? } }`. -/
structure MutationBody where
  data : MutationData

/-- Embeds the spread `...(id && { id })` of `serializeRequest`: the `id`
field is present iff the supplied string is truthy, i.e. non-empty. -/
def jsTruthyId : Option String → Option String
  | some s => if s = "" then none else some s
  | none => none

/-- Embeds `serializeRequest` from itglue-client.ts. -/
def serializeRequest (type : String) (attributes : List (String × JSVal))
    (id : Option String) : MutationBody :=
  ⟨⟨type, attributes.foldl serStep objEmpty, jsTruthyId id⟩⟩

/-- The `data` field of a response envelope: a single wire object or an
array of them (`JsonApiResponse.data` in types.ts). -/
inductive ApiData where
  | one (r : Resource) : ApiData
  | many (rs : List Resource) : ApiData

/-- Embeds the pure part of `ITGlueClient.getOne` (after the awaited HTTP
get): throws on an array-shaped `data` of any length, decodes otherwise. -/
def getOne (d : ApiData) : Except String JsObj :=
  match d with
  | .many _ => .error "Expected single resource but received array"
  | .one r => .ok (deserializeResource r)

/-- Embeds `deserializeOne` from itglue-client.ts, used by `post` (with
operation name "create") and `patch` (with "update"): an empty array is a
hard error naming the operation, a non-empty array yields its decoded first
element, a singular object is decoded directly. -/
def deserializeOne (d : ApiData) (operation : String) : Except String JsObj :=
  match d with
  | .many [] => .error ("API returned empty array for " ++ operation ++ " operation")
  | .many (r :: _) => .ok (deserializeResource r)
  | .one r => .ok (deserializeResource r)

/-- One entry of the upstream error list (`errors[]` in the envelope). -/
structure ErrEntry where
  title : Option String
  detail : Option String
deriving DecidableEq

/-- The values `handleApiError` can receive: an AxiosError (optional HTTP
status from `error.response`, upstream error list, transport `error.code`,
and the `Error.message`), a plain JavaScript `Error`, or any other thrown
value via its string representation. -/
inductive ApiFailure where
  | axios (status : Option Nat) (errors : List ErrEntry) (code : Option String)
      (message : String) : ApiFailure
  | jsError (message : String) : ApiFailure
  | other (text : String) : ApiFailure

/-- Embeds `data?.errors?.[0]?.detail ?? data?.errors?.[0]?.title`. -/
def firstDetail (errors : List ErrEntry) : Option String :=
  match errors with
  | [] => none
  | e :: _ =>
    match e.detail with
    | some d => some d
    | none => e.title

/-- The `switch (status)` of `handleApiError`, reached when the status is
truthy; every branch returns. -/
def statusMessage (status : Nat) (suffix : String) : String :=
  if status = 400 then "Error: Bad request." ++ suffix ++ " Check your parameters."
  else if status = 401 then
    "Error: Authentication failed. Verify your ITGLUE_API_KEY is valid and not revoked."
  else if status = 403 then
    "Error: Permission denied." ++ suffix ++ " Your API key may not have access to this resource."
  else if status = 404 then "Error: Resource not found. Verify the ID is correct."
  else if status = 415 then "Error: Unsupported media type. This is likely a bug in the MCP server."
  else if status = 422 then "Error: Validation failed." ++ suffix
  else if status = 429 then
    "Error: Rate limit exceeded (3000 requests per 5 minutes). Wait before retrying."
  else if 500 ≤ status then
    "Error: ITGlue server error (" ++ toString status ++ "). Try again later."
  else "Error: API request failed with status " ++ toString status ++ "." ++ suffix

/-- The connection-level checks of `handleApiError`, reached for an
AxiosError whose status is absent or falsy. -/
def codeMessage (code : Option String) (message : String) : String :=
  if code = some "ECONNABORTED" then "Error: Request timed out. Please try again."
  else if code = some "ECONNREFUSED" then
    "Error: Could not connect to ITGlue API. Check your base URL and network connectivity."
  else "Error: Unexpected error: " ++ message

/-- Embeds `handleApiError` from itglue-client.ts. -/
def handleApiError (e : ApiFailure) : String :=
  match e with
  | .axios status errors code message =>
    let suffix :=
      match firstDetail errors with
      | some d => " " ++ d
      | none => ""
    match status with
    | some s => if s ≠ 0 then statusMessage s suffix else codeMessage code message
    | none => codeMessage code message
  | .jsError message => "Error: Unexpected error: " ++ message
  | .other text => "Error: Unexpected error: " ++ text

/-- Substring containment on strings, used to state the message-taxonomy
claims ("message containing ..."). -/
def containsStr (needle hay : String) : Prop := needle.data <:+: hay.data

/-- The UTF-16 code units of an ASCII/BMP Lean string, for writing concrete
JavaScript strings in the code-unit model. -/
def asciiCodes (s : String) : List Nat := s.data.map Char.toNat

/-- The set matched by a JavaScript regex whitespace class and by
String.prototype.trim (ECMA-262 WhiteSpace plus LineTerminator). -/
def isJsWs (c : Nat) : Bool :=
  decide (c = 9 ∨ c = 10 ∨ c = 11 ∨ c = 12 ∨ c = 13 ∨ c = 32 ∨ c = 160 ∨ c = 5760 ∨
    (8192 ≤ c ∧ c ≤ 8202) ∨ c = 8232 ∨ c = 8233 ∨ c = 8239 ∨ c = 8287 ∨
    c = 12288 ∨ c = 65279)

/-- Decimal digit code unit. -/
def isDigitCU (c : Nat) : Bool := decide (48 ≤ c ∧ c ≤ 57)

/-- Hexadecimal digit code unit (0-9, a-f, A-F). -/
def isHexCU (c : Nat) : Bool :=
  decide ((48 ≤ c ∧ c ≤ 57) ∨ (97 ≤ c ∧ c ≤ 102) ∨ (65 ≤ c ∧ c ≤ 70))

/-- ASCII lower-casing of a code unit, for case-insensitive tag matching
(the tag regexes carry the i flag). -/
def lowerCU (c : Nat) : Nat := if 65 ≤ c ∧ c ≤ 90 then c + 32 else c

/-- Value of a decimal digit run. -/
def decValue (ds : List Nat) : Nat := ds.foldl (fun a c => a * 10 + (c - 48)) 0

/-- Value of one hexadecimal digit code unit. -/
def hexDigitValue (c : Nat) : Nat :=
  if 48 ≤ c ∧ c ≤ 57 then c - 48 else if 97 ≤ c then c - 87 else c - 55

/-- Value of a hexadecimal digit run. -/
def hexValue (ds : List Nat) : Nat := ds.foldl (fun a c => a * 16 + hexDigitValue c) 0

/-- Embeds String.fromCharCode applied to one numeric argument: the argument
goes through ToUint16, so the produced string is the single code unit equal
to the value modulo 65536 (float rounding of astronomically large digit
strings is not modelled). Code points above 0xFFFF are therefore truncated;
the source uses fromCharCode, not fromCodePoint. -/
def jsFromCharCode (n : Nat) : List Nat := [n % 65536]

/-- One left-to-right pass of a global regex replace. The matcher receives
the remaining input; `some (extra, rep)` means the match covers the first
`extra + 1` code units and is replaced by `rep`, after which scanning
resumes past the match, exactly as a global replace advances `lastIndex`.
Fuel is structural recursion bookkeeping; `runReplace` supplies the input
length, which is sufficient since every step consumes at least one unit. -/
def replaceScan (m : List Nat → Option (Nat × List Nat)) :
    Nat → List Nat → List Nat
  | _, [] => []
  | 0, l => l
  | fuel + 1, c :: rest =>
    match m (c :: rest) with
    | some (extra, rep) => rep ++ replaceScan m fuel (rest.drop extra)
    | none => c :: replaceScan m fuel rest

/-- Global regex replace over a whole input. -/
def runReplace (m : List Nat → Option (Nat × List Nat)) (l : List Nat) : List Nat :=
  replaceScan m l.length l

/-- Matcher for the line-break tag rule: an opening angle bracket, `br` in
either case, any run of whitespace, an optional slash, then the closing
angle bracket; replaced by one newline. -/
def mBr : List Nat → Option (Nat × List Nat)
  | 60 :: b :: r :: rest =>
    if lowerCU b = 98 ∧ lowerCU r = 114 then
      let w := (rest.takeWhile isJsWs).length
      match rest.drop w with
      | 47 :: 62 :: _ => some (4 + w, [10])
      | 62 :: _ => some (3 + w, [10])
      | _ => none
    else none
  | _ => none

/-- Matcher for the paragraph-close rule; replaced by a double newline. -/
def mPClose : List Nat → Option (Nat × List Nat)
  | 60 :: 47 :: p :: 62 :: _ =>
    if lowerCU p = 112 then some (3, [10, 10]) else none
  | _ => none

/-- Matcher for the list-item-close rule; replaced by a newline. -/
def mLiClose : List Nat → Option (Nat × List Nat)
  | 60 :: 47 :: a :: b :: 62 :: _ =>
    if lowerCU a = 108 ∧ lowerCU b = 105 then some (4, [10]) else none
  | _ => none

/-- Matcher for the list-item-open rule (`li` followed by any run of
non-closing-bracket units, then the closing bracket); replaced by a
literal dash and space. -/
def mLiOpen : List Nat → Option (Nat × List Nat)
  | 60 :: a :: b :: rest =>
    if lowerCU a = 108 ∧ lowerCU b = 105 then
      let t := (rest.takeWhile (fun c => !(c == 62))).length
      match rest.drop t with
      | 62 :: _ => some (3 + t, [45, 32])
      | _ => none
    else none
  | _ => none

/-- Matcher for the heading-close rule, levels 1 through 6; replaced by a
newline. -/
def mHClose : List Nat → Option (Nat × List Nat)
  | 60 :: 47 :: h :: d :: 62 :: _ =>
    if lowerCU h = 104 ∧ 49 ≤ d ∧ d ≤ 54 then some (4, [10]) else none
  | _ => none

/-- Matcher for the heading-open rule: level N yields N hash marks and a
space. -/
def mHOpen : List Nat → Option (Nat × List Nat)
  | 60 :: h :: d :: rest =>
    if lowerCU h = 104 ∧ 49 ≤ d ∧ d ≤ 54 then
      let t := (rest.takeWhile (fun c => !(c == 62))).length
      match rest.drop t with
      | 62 :: _ => some (3 + t, List.replicate (d - 48) 35 ++ [32])
      | _ => none
    else none
  | _ => none

/-- Matcher for the strip-remaining-tags rule: an opening angle bracket, at
least one unit that is not a closing angle bracket, then the closing
bracket; removed with no replacement. -/
def mAnyTag : List Nat → Option (Nat × List Nat)
  | 60 :: c :: rest =>
    if c = 62 then none
    else
      let t := ((c :: rest).takeWhile (fun u => !(u == 62))).length
      match (c :: rest).drop t with
      | 62 :: _ => some (t + 1, [])
      | _ => none
  | _ => none

/-- Matcher for one literal (case-sensitive) named entity. -/
def mLit (pat rep : List Nat) (l : List Nat) : Option (Nat × List Nat) :=
  if pat.isPrefixOf l then some (pat.length - 1, rep) else none

/-- Matcher for a decimal numeric character reference: ampersand, hash, one
or more decimal digits, semicolon; replaced via String.fromCharCode. -/
def mDecRef : List Nat → Option (Nat × List Nat)
  | 38 :: 35 :: rest =>
    let ds := rest.takeWhile isDigitCU
    if ds.length = 0 then none
    else
      match rest.drop ds.length with
      | 59 :: _ => some (2 + ds.length, jsFromCharCode (decValue ds))
      | _ => none
  | _ => none

/-- Matcher for a hexadecimal numeric character reference: ampersand, hash,
lower-case x, one or more hex digits, semicolon. -/
def mHexRef : List Nat → Option (Nat × List Nat)
  | 38 :: 35 :: 120 :: rest =>
    let ds := rest.takeWhile isHexCU
    if ds.length = 0 then none
    else
      match rest.drop ds.length with
      | 59 :: _ => some (3 + ds.length, jsFromCharCode (hexValue ds))
      | _ => none
  | _ => none

/-- Matcher for the newline-collapsing rule: a run of three or more
newlines (greedy) becomes exactly two. -/
def mNlRun : List Nat → Option (Nat × List Nat)
  | 10 :: 10 :: 10 :: rest =>
    let t := (rest.takeWhile (fun c => c == 10)).length
    some (2 + t, [10, 10])
  | _ => none

/-- Embeds String.prototype.trim: strip leading and trailing whitespace. -/
def jsTrim (l : List Nat) : List Nat :=
  ((l.dropWhile isJsWs).reverse.dropWhile isJsWs).reverse

/-- Embeds `stripHtml` from itglue-client.ts, rule for rule in source
order, over UTF-16 code units. -/
def stripHtml (html : List Nat) : List Nat :=
  let s := runReplace mBr html
  let s := runReplace mPClose s
  let s := runReplace mLiClose s
  let s := runReplace mLiOpen s
  let s := runReplace mHClose s
  let s := runReplace mHOpen s
  let s := runReplace mAnyTag s
  let s := runReplace (mLit (asciiCodes "&amp;") [38]) s
  let s := runReplace (mLit (asciiCodes "&lt;") [60]) s
  let s := runReplace (mLit (asciiCodes "&gt;") [62]) s
  let s := runReplace (mLit (asciiCodes "&quot;") [34]) s
  let s := runReplace (mLit (asciiCodes "&#39;") [39]) s
  let s := runReplace (mLit (asciiCodes "&nbsp;") [32]) s
  let s := runReplace (mLit (asciiCodes "&mdash;") [8212]) s
  let s := runReplace (mLit (asciiCodes "&ndash;") [8211]) s
  let s := runReplace (mLit (asciiCodes "&hellip;") [8230]) s
  let s := runReplace (mLit (asciiCodes "&rsquo;") [39]) s
  let s := runReplace (mLit (asciiCodes "&lsquo;") [39]) s
  let s := runReplace (mLit (asciiCodes "&rdquo;") [8221]) s
  let s := runReplace (mLit (asciiCodes "&ldquo;") [8220]) s
  let s := runReplace (mLit (asciiCodes "&copy;") [169]) s
  let s := runReplace (mLit (asciiCodes "&trade;") [8482]) s
  let s := runReplace mDecRef s
  let s := runReplace mHexRef s
  let s := runReplace mNlRun s
  jsTrim s

/-- UTF-16 encoding of a Unicode code point, used to express the claim's
"the corresponding character of that code point" as a JavaScript string. -/
def utf16Encode (n : Nat) : List Nat :=
  if n < 65536 then [n]
  else [55296 + (n - 65536) / 1024, 56320 + (n - 65536) % 1024]

/-- CHARACTER_LIMIT from constants.ts. -/
def CHARACTER_LIMIT : Nat := 25000

/-- Helper for number grouping: insert a comma after every third digit of a
reversed digit list. -/
def commaGroupRev : List Char → List Char
  | a :: b :: c :: d :: rest => a :: b :: c :: ',' :: commaGroupRev (d :: rest)
  | l => l

/-- Embeds Number.prototype.toLocaleString() as it renders under the
default en-US locale of the runtime: decimal digits with thousands
separators. -/
def jsToLocaleString (n : Nat) : String :=
  ⟨(commaGroupRev (toString n).data.reverse).reverse⟩

/-- The footer appended by `truncateIfNeeded` past the limit: the two
template strings of the source, selected by presence of the caller hint. -/
def truncationFooter (hint : Option (List Nat)) : List Nat :=
  match hint with
  | some h =>
    asciiCodes "\n\n---\n[Response truncated at " ++
      asciiCodes (jsToLocaleString CHARACTER_LIMIT) ++
      asciiCodes " characters. " ++ h ++ asciiCodes "]"
  | none =>
    asciiCodes "\n\n---\n[Response truncated at " ++
      asciiCodes (jsToLocaleString CHARACTER_LIMIT) ++
      asciiCodes " characters. Use filters or pagination to narrow results.]"

/-- Embeds `truncateIfNeeded` from itglue-client.ts over UTF-16 code units
(JavaScript .length and .slice count code units). -/
def truncateIfNeeded (text : List Nat) (hint : Option (List Nat)) : List Nat :=
  if text.length ≤ CHARACTER_LIMIT then text
  else text.take CHARACTER_LIMIT ++ truncationFooter hint

/-- A query-parameter value: the handler passes strings and numbers. -/
inductive PVal where
  | str (s : String) : PVal
  | num (n : Int) : PVal
deriving DecidableEq

/-- Embeds `buildPaginationParams` from itglue-client.ts. -/
def buildPaginationParams (pageNumber pageSize : Int) : List (String × PVal) :=
  [("page[number]", PVal.num pageNumber), ("page[size]", PVal.num pageSize)]

/-- Embeds `buildFilterParams` from itglue-client.ts: one
`filter[hyphenated-key]` parameter per present entry, absent entries
contribute nothing. Parameter records are kept as insertion-ordered lists;
the embedded callers never assign the same key twice. -/
def buildFilterParams (filters : List (String × Option PVal)) : List (String × PVal) :=
  filters.foldl
    (fun acc p =>
      match p.2 with
      | some v => acc ++ [("filter[" ++ snakeToKebab p.1 ++ "]", v)]
      | none => acc)
    []

/-- A document record as the listing handler sees it; the handler treats
records opaquely apart from formatting, so the fields the repo tests use
suffice. -/
structure DocR where
  id : String
  name : String
deriving DecidableEq

/-- PaginatedResult from types.ts, specialised to document records. -/
structure PageResultD where
  data : List DocR
  total_count : Int
  page_number : Int
  page_size : Int
  has_more : Bool
  next_page : Option Int
deriving DecidableEq

/-- The validated arguments of the itglue_list_documents tool
(ListDocumentsSchema in schemas/documents.ts). `response_format` does not
influence the embedded result computation and is carried for fidelity. -/
structure ListDocumentsInput where
  organization_id : Int
  filter_name : Option String
  filter_id : Option Int
  sort : Option String
  page_number : Int
  page_size : Int
  response_format : String

/-- The query parameters built by the itglue_list_documents handler
(documents.ts): pagination, then name/id filters, then the optional sort. -/
def listDocumentsQueryParams (p : ListDocumentsInput) : List (String × PVal) :=
  buildPaginationParams p.page_number p.page_size ++
    buildFilterParams
      [("name", p.filter_name.map PVal.str), ("id", p.filter_id.map PVal.num)] ++
    (match p.sort with
     | some s => [("sort", PVal.str s)]
     | none => [])

/-- The org-scoped collection path used by the handler. -/
def documentsPath (orgId : Int) : String :=
  "/organizations/" ++ toString orgId ++ "/relationships/documents"

/-- Embeds the result computation of the itglue_list_documents handler in
documents.ts (lines 82-131): it issues exactly one `getMany` call with the
built query parameters and bases all output on that single result. The
HTTP client is a function parameter, standing for the mocked `client` of
the repo's tests. -/
def listDocumentsResult (getMany : String → List (String × PVal) → PageResultD)
    (p : ListDocumentsInput) : PageResultD :=
  getMany (documentsPath p.organization_id) (listDocumentsQueryParams p)

/-- Modelled from the spec: deduplication by id keeping the first
occurrence, in first-sighting order (spec section 4.4 step 3 and the
expectations of documents.test.ts). Stated claim-side, for comparison with
the embedded handler. -/
def specDedupById (docs : List DocR) : List DocR :=
  docs.foldl
    (fun acc d => if acc.any (fun e => e.id == d.id) then acc else acc ++ [d]) []

/-- Modelled from the spec: the merged data of the dual-query listing,
subset A concatenated before subset B, then deduplicated by id. -/
def specMergedData (a b : List DocR) : List DocR := specDedupById (a ++ b)

/-- The discriminating folder filter the second sub-query is required to
carry (documents.test.ts line 104). -/
def folderFilterKey : String := "filter[document-folder-id][ne]"

/-- Whether a parameter list carries the discriminating folder filter. -/
def hasFolderFilter (ps : List (String × PVal)) : Bool :=
  ps.any (fun p => p.1 == folderFilterKey)

/-- Root-partition page ("RootDoc") of the first failing scenario. -/
def rootPage1 : PageResultD := ⟨[⟨"1", "RootDoc"⟩], 1, 1, 50, false, none⟩

/-- Folder-partition page ("FolderDoc") of the first failing scenario. -/
def folderPage1 : PageResultD := ⟨[⟨"2", "FolderDoc"⟩], 1, 1, 50, false, none⟩

/-- A client whose unfiltered query returns the root partition and whose
folder-filtered query returns the folder partition. -/
def mockClientA (_ : String) (ps : List (String × PVal)) : PageResultD :=
  if hasFolderFilter ps then folderPage1 else rootPage1

/-- The handler invocation of the failing scenarios: organization 123,
page 1, page size 50, no filters. -/
def sampleInput : ListDocumentsInput := ⟨123, none, none, none, 1, 50, "markdown"⟩

/-- Root-partition page of the second failing scenario: 100 total, no more
pages. -/
def rootPage2 : PageResultD := ⟨[⟨"1", "Doc1"⟩], 100, 1, 50, false, none⟩

/-- Folder-partition page of the second failing scenario: 5 total, more
pages available. -/
def folderPage2 : PageResultD := ⟨[⟨"2", "Doc2"⟩], 5, 1, 50, true, some 2⟩

/-- Client for the second failing scenario. -/
def mockClientB (_ : String) (ps : List (String × PVal)) : PageResultD :=
  if hasFolderFilter ps then folderPage2 else rootPage2

/-- A separator character in the sense of the round-trip claim. -/
def sepChar (c : Char) : Bool := c == '-' || c == '_'

/-- Whether some digit is adjacent to a separator somewhere in the list. -/
def digitAdjacentSep : List Char → Bool
  | a :: b :: t =>
    (sepChar a && b.isDigit) || (a.isDigit && sepChar b) || digitAdjacentSep (b :: t)
  | _ => false

/-- The side condition of the round-trip claim: the key contains no digits
adjacent to separators. -/
def noDigitsAdjacentToSeparators (s : String) : Bool := !(digitAdjacentSep s.data)

/-- Attribute map exercising the preserved falsy values of the encode
claim: 0, null, false kept, undefined dropped. -/
def c5attrs : List (String × JSVal) :=
  [("organization_id", JSVal.num 0), ("quick_notes", JSVal.null),
   ("primary", JSVal.bool false), ("description", JSVal.undef)]

/-!
Helper lemmas about list infixes and about the object-building folds.
-/

theorem listInfixAppendRight {α : Type} {n a : List α} (h : n <:+: a) (b : List α) :
    n <:+: a ++ b := by
  obtain ⟨s, t, hst⟩ := h
  exact ⟨s, t ++ b, by rw [← hst]; simp⟩

theorem listInfixAppendLeft {α : Type} {n b : List α} (h : n <:+: b) (a : List α) :
    n <:+: a ++ b := by
  obtain ⟨s, t, hst⟩ := h
  exact ⟨a ++ s, t, by rw [← hst]; simp⟩

theorem desFold_not_mem :
    ∀ (l : List (String × JSVal)) (acc : JsObj) (K : String),
      (∀ p ∈ l, kebabToSnake p.1 ≠ K) → l.foldl desStep acc K = acc K := by
  intro l
  induction l with
  | nil => intro acc K _; rfl
  | cons p t ih =>
    intro acc K h
    have h1 : kebabToSnake p.1 ≠ K := h p (List.mem_cons_self p t)
    have h2 : ∀ q ∈ t, kebabToSnake q.1 ≠ K := fun q hq => h q (List.mem_cons_of_mem p hq)
    have h3 : (p :: t).foldl desStep acc K = desStep acc p K := ih (desStep acc p) K h2
    rw [h3]
    show (if K = kebabToSnake p.1 then some p.2 else acc K) = acc K
    rw [if_neg (Ne.symm h1)]

theorem desFold_mem :
    ∀ (l : List (String × JSVal)) (acc : JsObj) (k : String) (v : JSVal),
      (l.map (fun p => kebabToSnake p.1)).Nodup → (k, v) ∈ l →
      l.foldl desStep acc (kebabToSnake k) = some v := by
  intro l
  induction l with
  | nil => intro acc k v _ hm; cases hm
  | cons p t ih =>
    intro acc k v hnd hm
    rw [List.map_cons] at hnd
    have hnd' := List.nodup_cons.mp hnd
    rcases List.mem_cons.mp hm with he | ht
    · have hp1 : p.1 = k := by rw [← he]
      have hp2 : p.2 = v := by rw [← he]
      have hnotin : ∀ q ∈ t, kebabToSnake q.1 ≠ kebabToSnake k := by
        intro q hq heq
        apply hnd'.1
        rw [hp1, ← heq]
        exact List.mem_map_of_mem (fun r => kebabToSnake r.1) hq
      have h3 : (p :: t).foldl desStep acc (kebabToSnake k) =
          desStep acc p (kebabToSnake k) :=
        desFold_not_mem t (desStep acc p) (kebabToSnake k) hnotin
      rw [h3]
      show (if kebabToSnake k = kebabToSnake p.1 then some p.2 else acc (kebabToSnake k)) =
        some v
      rw [hp1, if_pos rfl, hp2]
    · exact ih (desStep acc p) k v hnd'.2 ht

theorem serFold_not_mem :
    ∀ (l : List (String × JSVal)) (acc : JsObj) (K : String),
      (∀ p ∈ l, p.2 ≠ JSVal.undef → snakeToKebab p.1 ≠ K) →
      l.foldl serStep acc K = acc K := by
  intro l
  induction l with
  | nil => intro acc K _; rfl
  | cons p t ih =>
    intro acc K h
    have h2 : ∀ q ∈ t, q.2 ≠ JSVal.undef → snakeToKebab q.1 ≠ K :=
      fun q hq => h q (List.mem_cons_of_mem p hq)
    have h3 : (p :: t).foldl serStep acc K = serStep acc p K := ih (serStep acc p) K h2
    rw [h3]
    by_cases hu : p.2 = JSVal.undef
    · simp [serStep, hu]
    · have h1 : snakeToKebab p.1 ≠ K := h p (List.mem_cons_self p t) hu
      simp only [serStep, if_neg hu]
      show (if K = snakeToKebab p.1 then some p.2 else acc K) = acc K
      rw [if_neg (Ne.symm h1)]

theorem serFold_mem :
    ∀ (l : List (String × JSVal)) (acc : JsObj) (k : String) (v : JSVal),
      ((l.filter (fun p => p.2 ≠ JSVal.undef)).map (fun p => snakeToKebab p.1)).Nodup →
      (k, v) ∈ l → v ≠ JSVal.undef →
      l.foldl serStep acc (snakeToKebab k) = some v := by
  intro l
  induction l with
  | nil => intro acc k v _ hm _; cases hm
  | cons p t ih =>
    intro acc k v hnd hm hv
    by_cases hu : p.2 = JSVal.undef
    · have hnd' : ((t.filter (fun p => p.2 ≠ JSVal.undef)).map
          (fun p => snakeToKebab p.1)).Nodup := by
        rw [List.filter_cons] at hnd
        simpa [hu] using hnd
      rcases List.mem_cons.mp hm with he | ht
      · exfalso
        apply hv
        have : p.2 = v := by rw [← he]
        rw [← this, hu]
      · have h3 : (p :: t).foldl serStep acc (snakeToKebab k) =
            t.foldl serStep acc (snakeToKebab k) := by
          show t.foldl serStep (serStep acc p) (snakeToKebab k) = _
          rw [show serStep acc p = acc from by simp [serStep, hu]]
        rw [h3]
        exact ih acc k v hnd' ht hv
    · have hfc : (p :: t).filter (fun p => p.2 ≠ JSVal.undef) =
          p :: t.filter (fun p => p.2 ≠ JSVal.undef) := by
        rw [List.filter_cons]
        simp [hu]
      rw [hfc, List.map_cons] at hnd
      have hnd' := List.nodup_cons.mp hnd
      rcases List.mem_cons.mp hm with he | ht
      · have hp1 : p.1 = k := by rw [← he]
        have hp2 : p.2 = v := by rw [← he]
        have hnotin : ∀ q ∈ t, q.2 ≠ JSVal.undef → snakeToKebab q.1 ≠ snakeToKebab k := by
          intro q hq hqv heq
          apply hnd'.1
          rw [hp1, ← heq]
          have hqf : q ∈ t.filter (fun p => p.2 ≠ JSVal.undef) :=
            List.mem_filter.mpr ⟨hq, decide_eq_true hqv⟩
          exact List.mem_map_of_mem (fun r => snakeToKebab r.1) hqf
        have h3 : (p :: t).foldl serStep acc (snakeToKebab k) =
            serStep acc p (snakeToKebab k) :=
          serFold_not_mem t (serStep acc p) (snakeToKebab k) hnotin
        rw [h3]
        simp only [serStep, if_neg hu]
        show (if snakeToKebab k = snakeToKebab p.1 then some p.2
          else acc (snakeToKebab k)) = some v
        rw [hp1, if_pos rfl, hp2]
      · exact ih (serStep acc p) k v hnd'.2 ht hv

theorem serFold_some :
    ∀ (l : List (String × JSVal)) (acc : JsObj) (K : String) (w : JSVal),
      l.foldl serStep acc K = some w →
      (∃ k, (k, w) ∈ l ∧ w ≠ JSVal.undef ∧ K = snakeToKebab k) ∨ acc K = some w := by
  intro l
  induction l with
  | nil => intro acc K w h; exact Or.inr h
  | cons p t ih =>
    intro acc K w h
    rcases ih (serStep acc p) K w h with ⟨k, hk, hw, hK⟩ | hacc
    · exact Or.inl ⟨k, List.mem_cons_of_mem p hk, hw, hK⟩
    · by_cases hu : p.2 = JSVal.undef
      · rw [show serStep acc p = acc from by simp [serStep, hu]] at hacc
        exact Or.inr hacc
      · simp only [serStep, if_neg hu] at hacc
        by_cases hKk : K = snakeToKebab p.1
        · left
          refine ⟨p.1, ?_, ?_, hKk⟩
          · have hval : some p.2 = some w := by
              rw [← hacc]
              show some p.2 = (if K = snakeToKebab p.1 then some p.2 else acc K)
              rw [if_pos hKk]
            have hw : p.2 = w := Option.some.inj hval
            rw [← hw]
            exact List.mem_cons_self p t
          · have hval : some p.2 = some w := by
              rw [← hacc]
              show some p.2 = (if K = snakeToKebab p.1 then some p.2 else acc K)
              rw [if_pos hKk]
            rw [← Option.some.inj hval]
            exact hu
        · right
          rw [← hacc]
          show acc K = (if K = snakeToKebab p.1 then some p.2 else acc K)
          rw [if_neg hKk]

theorem mapSwap_roundtrip :
    ∀ l : List Char, (∀ c ∈ l, c ≠ '_') →
      (l.map (fun c => if c = '-' then '_' else c)).map
        (fun c => if c = '_' then '-' else c) = l := by
  intro l h
  induction l with
  | nil => rfl
  | cons c t ih =>
    rw [List.map_cons, List.map_cons, ih (fun q hq => h q (List.mem_cons_of_mem c hq))]
    congr 1
    by_cases hc : c = '-'
    · simp [hc]
    · have hu : c ≠ '_' := h c (List.mem_cons_self c t)
      simp [hc, hu]

/-!
Sanity checks: the embedded stripHtml reproduces the expectations of the
repository's own test suite (itglue-client.test.ts).
-/

theorem stripHtml_sanity_br :
    stripHtml (asciiCodes "line1<br />line2") = asciiCodes "line1\nline2" := by decide

theorem stripHtml_sanity_paragraphs :
    stripHtml (asciiCodes "<p>para1</p><p>para2</p>") = asciiCodes "para1\n\npara2" := by
  decide

theorem stripHtml_sanity_items :
    stripHtml (asciiCodes "<li>item1</li><li>item2</li>") = asciiCodes "- item1\n- item2" := by
  decide

theorem stripHtml_sanity_heading :
    stripHtml (asciiCodes "<h2>Subtitle</h2>") = asciiCodes "## Subtitle" := by decide

theorem stripHtml_sanity_entities :
    stripHtml (asciiCodes "A &amp; B") = asciiCodes "A & B" ∧
    stripHtml (asciiCodes "&#x41;") = asciiCodes "A" ∧
    stripHtml (asciiCodes "&#65;") = asciiCodes "A" ∧
    stripHtml (asciiCodes "a\n\n\n\n\nb") = asciiCodes "a\n\nb" ∧
    stripHtml (asciiCodes "<div><span>text</span></div>") = asciiCodes "text" := by decide

/-!
Claim theorems.
-/

/-- Claim C1 (evidence of the code bug): with a client that serves the
root partition to the unfiltered query and the folder partition to the
folder-filtered query, the itglue_list_documents handler's result contains
only the root partition, because it issues a single query with no
discriminating folder filter — it does not produce the concatenated,
id-deduplicated merge of the two subsets that the claim (and the repo's own
documents.test.ts) requires. -/
theorem listDocuments_single_query_eval :
    (listDocumentsResult mockClientA sampleInput).data = rootPage1.data
    ∧ hasFolderFilter (listDocumentsQueryParams sampleInput) = false
    ∧ specMergedData rootPage1.data folderPage1.data =
        [⟨"1", "RootDoc"⟩, ⟨"2", "FolderDoc"⟩]
    ∧ (listDocumentsResult mockClientA sampleInput).data ≠
        specMergedData rootPage1.data folderPage1.data := by decide

/-- Claim C2 (evidence of the code bug): in the same single-query handler,
the reported total_count is the first (and only) sub-result's count, not
the arithmetic sum of both partitions' counts, and has_more is the single
call's flag rather than the disjunction of both sub-queries' flags. -/
theorem listDocuments_total_count_eval :
    (listDocumentsResult mockClientB sampleInput).total_count = 100
    ∧ rootPage2.total_count + folderPage2.total_count = 105
    ∧ (listDocumentsResult mockClientB sampleInput).has_more = false
    ∧ (rootPage2.has_more || folderPage2.has_more) = true := by decide

/-- Claim C3: getOne fails with the "Expected single resource but received
array" error for every array-shaped envelope data (any length, including
one), and decodes and returns the record for every singular object. -/
theorem getOne_spec :
    (∀ rs : List Resource,
      getOne (ApiData.many rs) = Except.error "Expected single resource but received array")
    ∧ (∀ r : Resource, getOne (ApiData.one r) = Except.ok (deserializeResource r)) :=
  ⟨fun _ => rfl, fun _ => rfl⟩

/-- Claim C4: the mutation-result unwrapper fails with an error naming the
operation on an empty array, returns the decoded first element of a
non-empty array, and returns the decoding of a singular object. -/
theorem deserializeOne_spec :
    (∀ op : String,
      deserializeOne (ApiData.many []) op =
        Except.error ("API returned empty array for " ++ op ++ " operation"))
    ∧ (∀ (r : Resource) (rest : List Resource) (op : String),
      deserializeOne (ApiData.many (r :: rest)) op = Except.ok (deserializeResource r))
    ∧ (∀ (r : Resource) (op : String),
      deserializeOne (ApiData.one r) op = Except.ok (deserializeResource r)) :=
  ⟨fun _ => rfl, fun _ _ _ => rfl, fun _ _ => rfl⟩

/-- Claim C5 (counterexample): at the concrete input with attributes
a_b ↦ 1 and a-b ↦ 2 and supplied id "" the claim fails twice over: the
body's attribute at the translated key of a_b is 2 (the later entry
overwrote it, the value 1 is not preserved), and no id field is present
even though an id was supplied (the empty string is falsy and the source
spreads the id conditionally on truthiness). -/
theorem serializeRequest_claim_cex :
    ¬ ((serializeRequest "documents" [("a_b", JSVal.num 1), ("a-b", JSVal.num 2)]
          (some "")).data.attributes (snakeToKebab "a_b") = some (JSVal.num 1)
      ∧ ((serializeRequest "documents" [("a_b", JSVal.num 1), ("a-b", JSVal.num 2)]
          (some "")).data.id).isSome = true) := by decide

/-- Claim C5 (amended): for every type, attribute map whose hyphenated
translations of defined keys are pairwise distinct, and optional id, the
encoded body maps the hyphenated form of each key whose value is not
undefined to that unchanged value (0, false, null included), contains
nothing that did not arise this way, and carries an id field exactly for a
supplied non-empty id. -/
theorem serializeRequest_spec (ty : String) (attrs : List (String × JSVal))
    (oid : Option String)
    (hnd : ((attrs.filter (fun p => p.2 ≠ JSVal.undef)).map
      (fun p => snakeToKebab p.1)).Nodup) :
    (∀ k v, (k, v) ∈ attrs → v ≠ JSVal.undef →
      (serializeRequest ty attrs oid).data.attributes (snakeToKebab k) = some v)
    ∧ (∀ K w, (serializeRequest ty attrs oid).data.attributes K = some w →
      ∃ k, (k, w) ∈ attrs ∧ w ≠ JSVal.undef ∧ K = snakeToKebab k)
    ∧ (∀ s, (serializeRequest ty attrs oid).data.id = some s ↔
        (oid = some s ∧ ¬ s = "")) := by
  refine ⟨?_, ?_, ?_⟩
  · intro k v hm hv
    exact serFold_mem attrs objEmpty k v hnd hm hv
  · intro K w hw
    rcases serFold_some attrs objEmpty K w hw with h' | h'
    · exact h'
    · exact absurd h' (by simp [objEmpty])
  · intro s
    cases oid with
    | none =>
      have hid : (serializeRequest ty attrs none).data.id = none := rfl
      rw [hid]
      simp
    | some t =>
      by_cases ht : t = ""
      · subst ht
        have hid : (serializeRequest ty attrs (some "")).data.id = none := by
          show jsTruthyId (some "") = none
          simp [jsTruthyId]
        rw [hid]
        constructor
        · intro hx
          exact absurd hx (by simp)
        · rintro ⟨h1, h2⟩
          exact absurd (Option.some.inj h1).symm h2
      · have hid : (serializeRequest ty attrs (some t)).data.id = some t := by
          show jsTruthyId (some t) = some t
          simp [jsTruthyId, ht]
        rw [hid]
        constructor
        · intro hts
          have he : t = s := Option.some.inj hts
          exact ⟨by rw [he], by rw [← he]; exact ht⟩
        · intro hx
          exact hx.1

/-- Claim C5 witness: the amended encode specification at the concrete
attribute map keeping 0, null and false and dropping an undefined value,
with id "42". -/
theorem serializeRequest_spec_witness :
    (serializeRequest "documents" c5attrs (some "42")).data.attributes
      (snakeToKebab "organization_id") = some (JSVal.num 0)
    ∧ (serializeRequest "documents" c5attrs (some "42")).data.id = some "42" :=
  ⟨(serializeRequest_spec "documents" c5attrs (some "42") (by decide)).1
      "organization_id" (JSVal.num 0) (by decide) (by decide),
   ((serializeRequest_spec "documents" c5attrs (some "42") (by decide)).2.2 "42").mpr
      (by decide)⟩

/-- Claim C6 (counterexample): the key a_b contains no digits (hence none
adjacent to separators), yet hyphenating after underscoring yields a-b,
not the original key: the round trip is not the identity on every key
satisfying the claim's side condition. -/
theorem keyRoundtrip_claim_cex :
    noDigitsAdjacentToSeparators "a_b" = true
    ∧ snakeToKebab (kebabToSnake "a_b") ≠ "a_b" := by decide

/-- Claim C6 (amended): underscoring then hyphenating returns the original
key for every key containing no underscore; what the round trip needs is
absence of underscores, not the claim's digit condition. -/
theorem snakeToKebab_kebabToSnake (s : String) (h : ∀ c ∈ s.data, c ≠ '_') :
    snakeToKebab (kebabToSnake s) = s := by
  cases s with
  | mk l => exact congrArg String.mk (mapSwap_roundtrip l h)

/-- Claim C6 witness: the amended round trip at the key organization-id. -/
theorem snakeToKebab_kebabToSnake_witness :
    snakeToKebab (kebabToSnake "organization-id") = "organization-id" :=
  snakeToKebab_kebabToSnake "organization-id" (by decide)

/-- Claim C7 (evidence of the code bug): the decimal reference for the
code point 128512 (an emoji beyond the Basic Multilingual Plane) is not
replaced by the corresponding character — whose UTF-16 form is the
surrogate pair 55357, 56832 — but by the single code unit 62976, the value
modulo 65536, because the source decodes with String.fromCharCode instead
of String.fromCodePoint. -/
theorem stripHtml_astral_ref_eval :
    stripHtml (asciiCodes "&#128512;") = [62976]
    ∧ utf16Encode 128512 = [55357, 56832]
    ∧ stripHtml (asciiCodes "&#128512;") ≠ utf16Encode 128512 := by decide

/-- Claim C8: text within the 25000-unit budget is returned unchanged;
longer text is cut to exactly the first 25000 units followed by a footer
that states the limit and carries the caller hint when given, the default
narrowing suggestion otherwise. -/
theorem truncateIfNeeded_spec (text : List Nat) (hint : Option (List Nat)) :
    (text.length ≤ CHARACTER_LIMIT → truncateIfNeeded text hint = text)
    ∧ (CHARACTER_LIMIT < text.length →
        truncateIfNeeded text hint = text.take CHARACTER_LIMIT ++ truncationFooter hint
        ∧ (truncateIfNeeded text hint).take CHARACTER_LIMIT = text.take CHARACTER_LIMIT
        ∧ asciiCodes "25,000" <:+: truncateIfNeeded text hint
        ∧ (hint.getD (asciiCodes "Use filters or pagination to narrow results.")) <:+:
            truncateIfNeeded text hint) := by
  constructor
  · intro h
    unfold truncateIfNeeded
    rw [if_pos h]
  · intro h
    have hnle : ¬ text.length ≤ CHARACTER_LIMIT := by omega
    have heq : truncateIfNeeded text hint =
        text.take CHARACTER_LIMIT ++ truncationFooter hint := by
      unfold truncateIfNeeded
      rw [if_neg hnle]
    have hlen : (text.take CHARACTER_LIMIT).length = CHARACTER_LIMIT := by
      rw [List.length_take]
      exact min_eq_left (Nat.le_of_lt h)
    refine ⟨heq, ?_, ?_, ?_⟩
    · rw [heq]
      exact List.take_left' hlen
    · rw [heq]
      refine listInfixAppendLeft ?_ (text.take CHARACTER_LIMIT)
      have hL : asciiCodes (jsToLocaleString CHARACTER_LIMIT) = asciiCodes "25,000" := by
        decide
      cases hint with
      | some hh =>
        show asciiCodes "25,000" <:+:
          asciiCodes "\n\n---\n[Response truncated at " ++
            asciiCodes (jsToLocaleString CHARACTER_LIMIT) ++
            asciiCodes " characters. " ++ hh ++ asciiCodes "]"
        rw [hL]
        exact listInfixAppendRight (listInfixAppendRight (listInfixAppendRight
          (listInfixAppendLeft (List.infix_refl _) _) _) _) _
      | none =>
        show asciiCodes "25,000" <:+:
          asciiCodes "\n\n---\n[Response truncated at " ++
            asciiCodes (jsToLocaleString CHARACTER_LIMIT) ++
            asciiCodes " characters. Use filters or pagination to narrow results.]"
        rw [hL]
        exact listInfixAppendRight (listInfixAppendLeft (List.infix_refl _) _) _
    · rw [heq]
      refine listInfixAppendLeft ?_ (text.take CHARACTER_LIMIT)
      cases hint with
      | some hh =>
        show hh <:+:
          asciiCodes "\n\n---\n[Response truncated at " ++
            asciiCodes (jsToLocaleString CHARACTER_LIMIT) ++
            asciiCodes " characters. " ++ hh ++ asciiCodes "]"
        exact listInfixAppendRight (listInfixAppendLeft (List.infix_refl _) _) _
      | none =>
        show asciiCodes "Use filters or pagination to narrow results." <:+:
          asciiCodes "\n\n---\n[Response truncated at " ++
            asciiCodes (jsToLocaleString CHARACTER_LIMIT) ++
            asciiCodes " characters. Use filters or pagination to narrow results.]"
        refine listInfixAppendLeft ?_ _
        decide

/-- Claim C8 witness: short text is returned unchanged; a 25100-unit text
is cut at the limit and the footer appended. -/
theorem truncateIfNeeded_spec_witness :
    truncateIfNeeded (asciiCodes "short text") none = asciiCodes "short text"
    ∧ truncateIfNeeded (List.replicate 25100 97) none =
        (List.replicate 25100 97).take CHARACTER_LIMIT ++ truncationFooter none :=
  ⟨(truncateIfNeeded_spec (asciiCodes "short text") none).1 (by decide),
   ((truncateIfNeeded_spec (List.replicate 25100 97) none).2
      (by rw [List.length_replicate]; decide)).1⟩

/-- Claim C9: the classifier yields a message containing "not found" for
status 404; containing "Rate limit" and the 3000-requests-per-5-minutes
quota window for status 429; a server-error message suggesting a later
retry for every status of 500 or above; and a message containing "connect"
for a connection-refused failure (ECONNREFUSED code with no HTTP status,
i.e. no response arrived). -/
theorem handleApiError_spec :
    (∀ (errors : List ErrEntry) (code : Option String) (msg : String),
      containsStr "not found" (handleApiError (ApiFailure.axios (some 404) errors code msg)))
    ∧ (∀ (errors : List ErrEntry) (code : Option String) (msg : String),
      containsStr "Rate limit" (handleApiError (ApiFailure.axios (some 429) errors code msg))
      ∧ containsStr "3000 requests per 5 minutes"
          (handleApiError (ApiFailure.axios (some 429) errors code msg)))
    ∧ (∀ (s : Nat) (errors : List ErrEntry) (code : Option String) (msg : String),
      500 ≤ s →
      containsStr "server error" (handleApiError (ApiFailure.axios (some s) errors code msg))
      ∧ containsStr "Try again later"
          (handleApiError (ApiFailure.axios (some s) errors code msg)))
    ∧ (∀ (errors : List ErrEntry) (msg : String),
      containsStr "connect"
        (handleApiError (ApiFailure.axios none errors (some "ECONNREFUSED") msg))) := by
  refine ⟨?_, ?_, ?_, ?_⟩
  · intro errors code msg
    have h : handleApiError (ApiFailure.axios (some 404) errors code msg) =
        "Error: Resource not found. Verify the ID is correct." := rfl
    rw [h]
    simp only [containsStr]
    decide
  · intro errors code msg
    have h : handleApiError (ApiFailure.axios (some 429) errors code msg) =
        "Error: Rate limit exceeded (3000 requests per 5 minutes). Wait before retrying." :=
      rfl
    rw [h]
    constructor
    · simp only [containsStr]
      decide
    · simp only [containsStr]
      decide
  · intro s errors code msg h5
    have h0 : handleApiError (ApiFailure.axios (some s) errors code msg) =
        if s ≠ 0 then
          statusMessage s
            (match firstDetail errors with
             | some d => " " ++ d
             | none => "")
        else codeMessage code msg := rfl
    have hsm : ∀ suf : String, statusMessage s suf =
        "Error: ITGlue server error (" ++ toString s ++ "). Try again later." := by
      intro suf
      unfold statusMessage
      rw [if_neg (by omega : ¬ s = 400), if_neg (by omega : ¬ s = 401),
        if_neg (by omega : ¬ s = 403), if_neg (by omega : ¬ s = 404),
        if_neg (by omega : ¬ s = 415), if_neg (by omega : ¬ s = 422),
        if_neg (by omega : ¬ s = 429), if_pos h5]
    rw [h0, if_pos (by omega : s ≠ 0), hsm]
    constructor
    · simp only [containsStr]
      rw [String.data_append, String.data_append]
      exact listInfixAppendRight (listInfixAppendRight (by decide) (toString s).data) _
    · simp only [containsStr]
      rw [String.data_append, String.data_append]
      exact listInfixAppendLeft (by decide) _
  · intro errors msg
    have h : handleApiError (ApiFailure.axios none errors (some "ECONNREFUSED") msg) =
        "Error: Could not connect to ITGlue API. Check your base URL and network connectivity." :=
      rfl
    rw [h]
    simp only [containsStr]
    decide

/-- Claim C9 witness: the classifier at concrete failing calls, among them
the server-error case at status 503. -/
theorem handleApiError_spec_witness :
    containsStr "server error" (handleApiError (ApiFailure.axios (some 503) [] none "x"))
    ∧ containsStr "Try again later"
        (handleApiError (ApiFailure.axios (some 503) [] none "x")) :=
  handleApiError_spec.2.2.1 503 [] none "x" (by decide)

/-- Claim C10: when the wire attributes themselves contain a key named id
or type (and the translated attribute keys are distinct, as object keys
are), the decoded record's id or type field carries that attribute's
value, overwriting the resource's own identifier or type. -/
theorem deserializeResource_override_spec (r : Resource) (v : JSVal)
    (hnd : (r.attributes.map (fun p => kebabToSnake p.1)).Nodup) :
    (("id", v) ∈ r.attributes → deserializeResource r "id" = some v)
    ∧ (("type", v) ∈ r.attributes → deserializeResource r "type" = some v) := by
  constructor
  · intro hm
    have hk : kebabToSnake "id" = "id" := by decide
    rw [← hk]
    exact desFold_mem r.attributes
      (objInsert (objInsert objEmpty "id" (JSVal.str r.id)) "type" (JSVal.str r.type))
      "id" v hnd hm
  · intro hm
    have hk : kebabToSnake "type" = "type" := by decide
    rw [← hk]
    exact desFold_mem r.attributes
      (objInsert (objInsert objEmpty "id" (JSVal.str r.id)) "type" (JSVal.str r.type))
      "type" v hnd hm

/-- Claim C10 witness: a wire resource whose own id is 1 but whose
attribute bag carries id ↦ 999 decodes to a record whose id field is 999,
different from the wire identifier. -/
theorem deserializeResource_override_witness :
    deserializeResource (Resource.mk "1" "organizations" [("id", JSVal.str "999")]) "id" =
      some (JSVal.str "999")
    ∧ ("999" : String) ≠ "1" :=
  ⟨(deserializeResource_override_spec
      (Resource.mk "1" "organizations" [("id", JSVal.str "999")])
      (JSVal.str "999") (by decide)).1 (by decide),
   by decide⟩

end ITGlue
